import Mathlib

/-!
Verification of the `wlug` plugin host (src/wasm_plugs/src/lib.rs).

The development shallowly embeds the dependency-discovery-and-linking core of
the crate. The wasmtime engine is treated as an opaque service, exactly as the
specification scopes it: a compiled `Module` is modelled by its introspectable import/export
tables, its optional `__deps` descriptor, its linear memory
(a finite byte list) and the observable behaviour of its exported functions.
Instantiation succeeds once every import of the module is defined in the
linker, fails with an unknown-import error naming the first missing import
otherwise, and may additionally fail with a module-specific non-import error
(field `instErr`), which models start-section traps and the like.

All definitions are computable and follow the Rust source function by
function; comments cite the source lines they embed.
-/

namespace Wlug

abbrev PlugId := Nat

/-- Observable behaviour of one exported wasm function, as seen through the
store context: from the active plugin id at entry it produces the active
plugin id at return together with the result value. Parameters and wasm-level
results are abstracted into the single result value; traps are not modelled
(the claims about `call` concern successful calls). -/
structure WasmFn where
  run : PlugId → PlugId × Int

/-- A compiled wasm module (`wasmtime::Module`), reduced to what the host
observes: the names in its import table (all in the `env` namespace, as the
crate assumes), the names in its export table, the behaviour of its exported
functions, the address returned by the optional zero-argument `__deps` export
(`none` when the export is absent), whether a `memory` export exists, the
bytes of its linear memory, and an optional non-import instantiation error
(`instErr`) raised by the engine once all imports are satisfied. -/
structure Module where
  imports : List String
  exports : List String
  funcs : List (String × WasmFn)
  depsAddr : Option Nat
  hasMemory : Bool
  mem : List Nat
  instErr : Option String

/-- Result of metadata extraction, mirroring `PlugMetadata` (lib.rs:25-29). -/
structure PlugMetadata where
  deps : List String
  exports : List String
  imports : List String
deriving DecidableEq

/-- A registered plugin record, mirroring `Plug` (lib.rs:15-23). The field
`linkerDefs` models the set of names defined in the records own
`wasmtime::Linker`; `inst` models the `instance: Option<Instance>` field
(the live instance itself carries no extra data beyond the module here). -/
structure Plug where
  id : PlugId
  module : Module
  linkerDefs : List String
  inst : Option Unit
  deps : List String
  exports : List String
  imports : List String

/-- The whole host state, mirroring `Plugs` (lib.rs:35-40): the store context
current plugin id (`PlugContext.0`), the name-to-record map, the load order,
and the names of registered host functions (`PlugsHostFns`; the native
callables themselves are opaque). -/
structure Plugs where
  currentId : PlugId
  items : List (String × Plug)
  order : List String
  hostFns : List String

/-- Model of `Plugs::new` (lib.rs:44-51). -/
def emptyPlugs : Plugs :=
  { currentId := 0, items := [], order := [], hostFns := [] }

/-- Model of `Plugs::add_host_fn` (lib.rs:53-61): records the host function
name. -/
def add_host_fn (s : Plugs) (name : String) : Plugs :=
  { s with hostFns := s.hostFns ++ [name] }

/-- Lookup in the plugin map; `HashMap::get` on `items`. The map is modelled
as an association list whose keys are kept unique by `insertItem`. -/
def getItem (items : List (String × Plug)) (n : String) : Option Plug :=
  Option.map Prod.snd (items.find? (fun x => decide (x.1 = n)))

/-- Insertion into the plugin map; `HashMap::insert` on `items`: when the key
is already present the old value is replaced (and the old value dropped),
otherwise the pair is added. -/
def insertItem : List (String × Plug) → String → Plug → List (String × Plug)
  | [], n, p => [(n, p)]
  | x :: rest, n, p => if x.1 = n then (n, p) :: rest else x :: insertItem rest n p

/-- Classification of a `linker.instantiate` failure during metadata
extraction (lib.rs:81-108): either an `UnknownImportError` naming the first import
that is not defined in the linker, or any other engine error, which
`e.downcast()?` propagates unchanged. -/
inductive InstErr
  | missingImport (name : String)
  | otherErr (msg : String)

/-- First import of the module that is not defined in the linker; the name a
`wasmtime::UnknownImportError` would report. -/
def firstMissing (defs imports : List String) : Option String :=
  imports.find? (fun i => decide (¬ i ∈ defs))

/-- Model of `linker.instantiate` for the temporary extraction linker
(lib.rs:81): fails with `UnknownImportError` while an import is missing, then
fails with the module non-import error if it has one, else succeeds. -/
def instantiateTemp (m : Module) (defs : List String) : Except InstErr Unit :=
  match firstMissing defs m.imports with
  | some i => Except.error (InstErr.missingImport i)
  | none =>
    match m.instErr with
    | some e => Except.error (InstErr.otherErr e)
    | none => Except.ok ()

/-- The speculative-instantiation loop of `Plugs::extract_metadata`
(lib.rs:79-109). `defs` is the set of names for which a stub responder has
been synthesized in the temporary linker (`linker.func_new`, done for every
missing import); `req` is the `imports` vector, which collects a missing import
only when it is not a registered host function (lib.rs:101-105).
The `fuel` argument counts loop iterations; the source loop has no bound, and
its termination (fuel is never exhausted for a sufficient bound) is exactly
the content of claim C9. -/
def stubLoopAux (hostFns : List String) (m : Module) :
    Nat → List String → List String →
    Option (Except String (List String × List String))
  | 0, _, _ => none
  | fuel + 1, defs, req =>
    match instantiateTemp m defs with
    | Except.ok _ => some (Except.ok (defs, req))
    | Except.error (InstErr.otherErr e) => some (Except.error e)
    | Except.error (InstErr.missingImport i) =>
      stubLoopAux hostFns m fuel (defs ++ [i])
        (if i ∈ hostFns then req else req ++ [i])

/-- Byte-to-char conversion, `deps_buf[0] as char` (lib.rs:130). For byte
values (below 256) `Char.ofNat` agrees with Rust `u8 as char`. -/
def charOfByte (b : Nat) : Char := Char.ofNat b

/-- Model of `deps.last_mut().unwrap().push(c)` (lib.rs:134): appends a
character to the last accumulated dependency name. The list is never empty
at the call sites (an empty string is pushed before the loop, lib.rs:127). -/
def pushLast : List String → Char → List String
  | [], _ => []
  | [d], c => [d.push c]
  | d :: rest, c => d :: pushLast rest c

/-- The dependency-string reading loop of `Plugs::extract_metadata`
(lib.rs:126-138), expressed over the suffix of linear memory that starts at
the returned address: read a byte; a read past the end of memory fails (the
`memory.read` error propagates); a zero byte terminates; `;` (byte 59, the
comparison `c == ';'` on a `u8 as char` is exactly the byte comparison with
59) starts a new name; any other byte is appended to the current name. -/
def readDepsList : List Nat → List String → Except String (List String)
  | [], _ => Except.error "failed to read memory"
  | b :: rest, deps =>
    if b = 0 then Except.ok deps
    else if b = 59 then readDepsList rest (deps ++ [String.mk []])
    else readDepsList rest (pushLast deps (charOfByte b))

/-- Model of `Plugs::extract_metadata` (lib.rs:72-146): run the speculative
instantiation loop with an empty linker, then, if the instance has a typed
`__deps` export, require the `memory` export (lib.rs:119-125) and read the
terminator-delimited dependency string starting with one empty accumulated
name (lib.rs:126-127); the export names are read from the module export
table. The loop fuel `m.imports.length + 1` is sufficient, which is proved
below (`extract_stub_ok`), so the out-of-fuel branch is unreachable. -/
def extract_metadata (hostFns : List String) (m : Module) :
    Except String PlugMetadata :=
  match stubLoopAux hostFns m (m.imports.length + 1) [] [] with
  | none => Except.error "stub loop out of fuel"
  | some (Except.error e) => Except.error e
  | some (Except.ok (_, imports)) =>
    match m.depsAddr with
    | none => Except.ok { deps := [], exports := m.exports, imports := imports }
    | some a =>
      if m.hasMemory then
        match readDepsList (m.mem.drop a) [String.mk []] with
        | Except.error e => Except.error e
        | Except.ok deps =>
          Except.ok { deps := deps, exports := m.exports, imports := imports }
      else Except.error "missing memory export"

/-- Model of `Plugs::add` (lib.rs:149-180), with the plugin name passed
directly (the source derives it from the file stem and loads the module from
the file; both are external to the core). Metadata is extracted, host
functions are pre-defined in the record linker (`link_host`, lib.rs:163),
the record receives id `order.len()` and no instance, is inserted into the
map, and the name is appended to the load order. Note that `HashMap::insert`
replaces an existing entry and the name is pushed onto `order`
unconditionally: registering a duplicate name does not fail. -/
def add (s : Plugs) (name : String) (m : Module) : Except String Plugs :=
  match extract_metadata s.hostFns m with
  | Except.error e => Except.error e
  | Except.ok md =>
    Except.ok { s with
      items := insertItem s.items name
        { id := s.order.length, module := m, linkerDefs := s.hostFns,
          inst := none, deps := md.deps, exports := md.exports,
          imports := md.imports },
      order := s.order ++ [name] }

/-- Registration of a whole sequence of plugins by repeated `Plugs::add`. -/
def addAll (s : Plugs) : List (String × Module) → Except String Plugs
  | [] => Except.ok s
  | (n, m) :: rest =>
    match add s n m with
    | Except.error e => Except.error e
    | Except.ok s2 => addAll s2 rest

/-- Errors of `Plugs::link` (lib.rs:184-258), one constructor per `return
Err(...)` site, carrying the data interpolated into the source message. -/
inductive LinkErr
  | invalidDep (dep : String)
  | notInstantiated (dep plug : String)
  | missingExport (dep imp plug : String)
  | unresolved (plug : String) (imports : List String)
  | instantiateErr (msg : String)
deriving DecidableEq

/-- The inner `for imp in imports` loop of `Plugs::link` (lib.rs:204-233)
for one declared dependency: `res` collects the still-unresolved imports in
order, `toImport` collects `(import name, dependency name)` pairs for the
later `linker.define` calls. An import whose name is among the dependency
record exports requires the dependency to have a live instance
(lib.rs:209-213) and the instance to actually provide the export
(lib.rs:215-221). -/
def resolveImports (pDep : Plug) (depName pname : String) :
    List String → List String → List (String × String) →
    Except LinkErr (List String × List (String × String))
  | [], res, toImport => Except.ok (res, toImport)
  | imp :: rest, res, toImport =>
    if imp ∈ pDep.exports then
      match pDep.inst with
      | none => Except.error (LinkErr.notInstantiated depName pname)
      | some _ =>
        if imp ∈ pDep.module.exports then
          resolveImports pDep depName pname rest res (toImport ++ [(imp, depName)])
        else Except.error (LinkErr.missingExport depName imp pname)
    else resolveImports pDep depName pname rest (res ++ [imp]) toImport

/-- The `for dep_name in deps` loop of `Plugs::link` (lib.rs:202-239): each
declared dependency must be registered (else `invalidDep`, lib.rs:234-238),
and the unresolved-import list is filtered through its exports. -/
def resolveDeps (items : List (String × Plug)) (pname : String) :
    List String → List String → List (String × String) →
    Except LinkErr (List String × List (String × String))
  | [], imports, toImport => Except.ok (imports, toImport)
  | dep :: rest, imports, toImport =>
    match getItem items dep with
    | none => Except.error (LinkErr.invalidDep dep)
    | some pDep =>
      match resolveImports pDep dep pname imports [] toImport with
      | Except.error e => Except.error e
      | Except.ok (res, toImport2) => resolveDeps items pname rest res toImport2

/-- Model of `p.linker.instantiate` in `Plugs::link` (lib.rs:255): fails when
the module still has an import that the record linker does not define, or
with the module non-import error; the engine message is wrapped in
`instantiateErr`. -/
def instantiateFull (m : Module) (defs : List String) : Except LinkErr Unit :=
  match firstMissing defs m.imports with
  | some i => Except.error (LinkErr.instantiateErr ("unknown import: " ++ i))
  | none =>
    match m.instErr with
    | some e => Except.error (LinkErr.instantiateErr e)
    | none => Except.ok ()

/-- The body of the `for name in self.order` loop of `Plugs::link`
(lib.rs:192-256) for one plugin name. The declared-dependency walk runs only
when the cloned import list is nonempty (`if imports.len() > 0`,
lib.rs:201); afterwards a nonempty residue aborts with the unresolved-import
error (lib.rs:244-249) before anything is defined, else the matched exports
are defined in the record linker and the module is instantiated, storing the
instance. The source unwraps the map lookup (lib.rs:193), which cannot fail
for names drawn from `order`; the model returns an engine-style error in
that unreachable case. -/
def linkOne (items : List (String × Plug)) (name : String) :
    Except LinkErr (List (String × Plug)) :=
  match getItem items name with
  | none => Except.error (LinkErr.instantiateErr ("no plugin named " ++ name))
  | some p =>
    match (if p.imports = [] then Except.ok (p.imports, ([] : List (String × String)))
           else resolveDeps items name p.deps p.imports []) with
    | Except.error e => Except.error e
    | Except.ok (imports2, toImport) =>
      if imports2 = [] then
        match instantiateFull p.module (p.linkerDefs ++ toImport.map Prod.fst) with
        | Except.error e => Except.error e
        | Except.ok _ =>
          Except.ok (insertItem items name
            { p with
                linkerDefs := p.linkerDefs ++ (toImport.map Prod.fst),
                inst := some () })
      else Except.error (LinkErr.unresolved name imports2)

/-- Iteration of `linkOne` over a list of names; an error aborts the loop and
leaves the state reached so far (`return Err` out of `&mut self`). -/
def linkGo : Plugs → List String → Except LinkErr Unit × Plugs
  | s, [] => (Except.ok (), s)
  | s, n :: rest =>
    match linkOne s.items n with
    | Except.error e => (Except.error e, s)
    | Except.ok items2 => linkGo { s with items := items2 } rest

/-- Model of `Plugs::link` (lib.rs:184-258): process every name in load
order. -/
def link (s : Plugs) : Except LinkErr Unit × Plugs := linkGo s s.order

/-- Errors of the invocation path, one constructor per failure site of
`Plugs::get_func_with_id` (lib.rs:299-318). -/
inductive CallErr
  | notInstantiated (plug : String)
  | noSuchFunc (func plug : String)
  | notFound (func plug : String)
deriving DecidableEq

/-- Model of `Plugs::get_func_with_id` (lib.rs:299-318): look the plugin up
by name, require a live instance, and resolve the exported function by name
(`get_typed_func`; a missing or ill-typed export is `noSuchFunc`). -/
def get_func_with_id (s : Plugs) (plug func : String) :
    Except CallErr (PlugId × WasmFn) :=
  match getItem s.items plug with
  | some p =>
    match p.inst with
    | some _ =>
      match p.module.funcs.lookup func with
      | some f => Except.ok (p.id, f)
      | none => Except.error (CallErr.noSuchFunc func plug)
    | none => Except.error (CallErr.notInstantiated plug)
  | none => Except.error (CallErr.notFound func plug)

/-- Model of `Plugs::set_current_id` (lib.rs:286-288). -/
def set_current_id (s : Plugs) (plugin_id : PlugId) : Plugs :=
  { s with currentId := plugin_id }

/-- Model of `Plugs::call` (lib.rs:274-283): look up the function with the
plugin id, set the current id, then invoke the function on the store; the
function execution itself may move the current id (host functions reach the
context through the caller), and `call` performs no restoration afterwards. -/
def call (s : Plugs) (plug func : String) : Except CallErr (Int × Plugs) :=
  match get_func_with_id s plug func with
  | Except.error e => Except.error e
  | Except.ok (id, f) =>
    let s1 := set_current_id s id
    let out := f.run s1.currentId
    Except.ok (out.2, { s1 with currentId := out.1 })

/-! Concrete fixtures used by counterexamples and witnesses. -/

/-- A module with no imports, no exports and no `__deps` descriptor. -/
def mA : Module :=
  { imports := [], exports := [], funcs := [], depsAddr := none,
    hasMemory := false, mem := [], instErr := none }

/-- State after registering `mA` under the name `a` in the empty host. -/
def s1a : Plugs :=
  match add emptyPlugs "a" mA with
  | Except.ok s => s
  | Except.error _ => emptyPlugs

/-- The record that registration of `mA` as `a` in the empty host creates. -/
def plugA0 : Plug :=
  { id := 0, module := mA, linkerDefs := [], inst := none,
    deps := [], exports := [], imports := [] }

/-- State after registering the name `a` twice. -/
def s2a : Plugs :=
  match add s1a "a" mA with
  | Except.ok s => s
  | Except.error _ => s1a

/-- State after registering `mA` as `a` and then as `b`. -/
def sAB : Plugs :=
  match addAll emptyPlugs [("a", mA), ("b", mA)] with
  | Except.ok s => s
  | Except.error _ => emptyPlugs

/-- A module with no imports whose `__deps` descriptor points at the string
`ghost` (bytes 103 104 111 115 116, then the 0 terminator) at address 0. -/
def mGhost : Module :=
  { imports := [], exports := ["__deps", "memory"], funcs := [],
    depsAddr := some 0, hasMemory := true,
    mem := [103, 104, 111, 115, 116, 0], instErr := none }

/-- State after registering `mGhost` as `p`: its record declares the
unregistered dependency `ghost` and has an empty required-import list. -/
def sGhost : Plugs :=
  match add emptyPlugs "p" mGhost with
  | Except.ok s => s
  | Except.error _ => emptyPlugs

/-- A module importing the single function `f`. -/
def mImpF : Module :=
  { imports := ["f"], exports := [], funcs := [], depsAddr := none,
    hasMemory := false, mem := [], instErr := none }

/-- Record for `mImpF` declaring the dependency `d`, not yet linked. -/
def plugP : Plug :=
  { id := 0, module := mImpF, linkerDefs := [], inst := none,
    deps := ["d"], exports := [], imports := ["f"] }

/-- Record for a dependency `d` that is registered but not yet instantiated
and exports nothing. -/
def plugD : Plug :=
  { id := 1, module := mA, linkerDefs := [], inst := none,
    deps := [], exports := [], imports := [] }

/-- Registry holding `p` (which imports `f` and declares the dependency `d`)
before `d`, where `d` exports nothing. -/
def itemsC3 : List (String × Plug) := [("p", plugP), ("d", plugD)]

/-- Host state for `itemsC3`, with `p` first in load order. -/
def sC3 : Plugs :=
  { currentId := 0, items := itemsC3, order := ["p", "d"], hostFns := [] }

/-- Record for a dependency `d` that is registered but not yet instantiated
and whose record exports `f`. -/
def plugDexp : Plug :=
  { id := 1, module := mA, linkerDefs := [], inst := none,
    deps := [], exports := ["f"], imports := [] }

/-- Registry holding `p` before the uninstantiated dependency `d`, where `d`
exports the name `f` that `p` imports. -/
def itemsC3w : List (String × Plug) := [("p", plugP), ("d", plugDexp)]

/-- Record importing `f` and declaring the unregistered dependency `ghost`. -/
def plugPG : Plug :=
  { id := 0, module := mImpF, linkerDefs := [], inst := none,
    deps := ["ghost"], exports := [], imports := ["f"] }

/-- Registry holding only `plugPG`. -/
def itemsC2 : List (String × Plug) := [("p", plugPG)]

/-- A function that moves the active id to 7 (modelling a re-entrant call
chain whose innermost entry was plugin 7) and returns 3. -/
def wfB : WasmFn := { run := fun _ => (7, 3) }

/-- A module exporting the function `fun1` with behaviour `wfB`. -/
def mFn : Module :=
  { imports := [], exports := ["fun1"], funcs := [("fun1", wfB)],
    depsAddr := none, hasMemory := false, mem := [], instErr := none }

/-- An already-linked record for `mFn` with plugin id 4. -/
def plugQ : Plug :=
  { id := 4, module := mFn, linkerDefs := [], inst := some (),
    deps := [], exports := ["fun1"], imports := [] }

/-- Host state holding the linked plugin `q` and active id 0. -/
def sQ : Plugs :=
  { currentId := 0, items := [("q", plugQ)], order := ["q"], hostFns := [] }

/-- A module whose `__deps` descriptor points at the string `a;b;c`. -/
def mDeps : Module :=
  { imports := [], exports := ["__deps", "memory"], funcs := [],
    depsAddr := some 0, hasMemory := true,
    mem := [97, 59, 98, 59, 99, 0], instErr := none }

/-- A module whose `__deps` descriptor points at an empty string (the
terminator byte immediately). -/
def mDeps0 : Module :=
  { imports := [], exports := ["__deps", "memory"], funcs := [],
    depsAddr := some 0, hasMemory := true, mem := [0], instErr := none }

/-- A module with one import whose instantiation, once the import is
stubbed, fails with the non-import engine error `boom`. -/
def mBoom : Module :=
  { imports := ["x"], exports := [], funcs := [], depsAddr := none,
    hasMemory := false, mem := [], instErr := some "boom" }

/-- A module importing the host function name `h1` and the plugin-provided
name `f`. -/
def mImp : Module :=
  { imports := ["h1", "f"], exports := [], funcs := [], depsAddr := none,
    hasMemory := false, mem := [], instErr := none }

/-- The metadata that extraction of `mImp` with host table `[h1]` yields. -/
def mdImp : PlugMetadata := { deps := [], exports := [], imports := ["f"] }

/-! Lemmas about the speculative-instantiation loop. -/

/-- Distinct module imports that the temporary linker does not yet define;
the measure that bounds the remaining loop iterations. -/
def missingOf (m : Module) (defs : List String) : List String :=
  (m.imports.filter (fun i => decide (¬ i ∈ defs))).dedup

lemma firstMissing_mem {defs imports : List String} {i : String}
    (h : firstMissing defs imports = some i) : i ∈ imports ∧ ¬ i ∈ defs := by
  unfold firstMissing at h
  refine ⟨List.mem_of_find?_eq_some h, ?_⟩
  have hp := List.find?_some h
  simpa using hp

lemma firstMissing_none {defs imports : List String}
    (h : firstMissing defs imports = none) : ∀ i ∈ imports, i ∈ defs := by
  intro i hi
  unfold firstMissing at h
  have hp := List.find?_eq_none.mp h i hi
  simpa using hp

lemma missingOf_lt (m : Module) (defs : List String) (i : String)
    (hi : i ∈ m.imports) (hd : ¬ i ∈ defs) :
    (missingOf m (defs ++ [i])).length < (missingOf m defs).length := by
  have hmem : i ∈ missingOf m defs := by
    unfold missingOf
    rw [List.mem_dedup, List.mem_filter]
    exact ⟨hi, by simpa using hd⟩
  have hsub : missingOf m (defs ++ [i]) ⊆ (missingOf m defs).erase i := by
    intro x hx
    unfold missingOf at hx
    rw [List.mem_dedup, List.mem_filter] at hx
    obtain ⟨hx1, hx2⟩ := hx
    have hx2' : ¬ x ∈ defs ++ [i] := by simpa using hx2
    rw [List.mem_append] at hx2'
    push_neg at hx2'
    have hxi : x ≠ i := by
      intro he
      exact hx2'.2 (by simp [he])
    rw [List.mem_erase_of_ne hxi]
    unfold missingOf
    rw [List.mem_dedup, List.mem_filter]
    exact ⟨hx1, by simpa using hx2'.1⟩
  have hnd : (missingOf m (defs ++ [i])).Nodup := List.nodup_dedup _
  have hle := (hnd.subperm hsub).length_le
  have hone := List.length_erase_of_mem hmem
  have hpos : 0 < (missingOf m defs).length :=
    List.length_pos.mpr (List.ne_nil_of_mem hmem)
  omega

lemma missingOf_nil (m : Module) : missingOf m [] = m.imports.dedup := by
  unfold missingOf
  congr 1
  apply List.filter_eq_self.mpr
  intro a _
  simp

/-- Totality of the stub loop: with fuel strictly above the number of
distinct still-missing imports the loop never runs out of fuel; it ends in
success when the module has no non-import error and otherwise propagates
that error unchanged. -/
lemma stubLoopAux_total (hostFns : List String) (m : Module) :
    ∀ (fuel : Nat) (defs req : List String),
      (missingOf m defs).length < fuel →
      (m.instErr = none →
        ∃ d r, stubLoopAux hostFns m fuel defs req = some (Except.ok (d, r))) ∧
      (∀ e, m.instErr = some e →
        stubLoopAux hostFns m fuel defs req = some (Except.error e)) := by
  intro fuel
  induction fuel with
  | zero =>
    intro defs req h
    omega
  | succ n ih =>
    intro defs req h
    cases hfm : firstMissing defs m.imports with
    | none =>
      constructor
      · intro hie
        exact ⟨defs, req, by simp [stubLoopAux, instantiateTemp, hfm, hie]⟩
      · intro e hie
        simp [stubLoopAux, instantiateTemp, hfm, hie]
    | some i =>
      obtain ⟨hi, hd⟩ := firstMissing_mem hfm
      have hlt := missingOf_lt m defs i hi hd
      have hih := ih (defs ++ [i]) (if i ∈ hostFns then req else req ++ [i]) (by omega)
      constructor
      · intro hie
        obtain ⟨d, r, hr⟩ := hih.1 hie
        refine ⟨d, r, ?_⟩
        simp only [stubLoopAux, instantiateTemp, hfm]
        exact hr
      · intro e hie
        have hr := hih.2 e hie
        simp only [stubLoopAux, instantiateTemp, hfm]
        exact hr

/-- Which names the stub loop collects in its required-import list. -/
lemma stubLoopAux_mem (hostFns : List String) (m : Module) :
    ∀ (fuel : Nat) (defs req d r : List String),
      stubLoopAux hostFns m fuel defs req = some (Except.ok (d, r)) →
      ∀ i, i ∈ r ↔ (i ∈ req ∨ (i ∈ m.imports ∧ ¬ i ∈ defs ∧ ¬ i ∈ hostFns)) := by
  intro fuel
  induction fuel with
  | zero =>
    intro defs req d r h
    simp [stubLoopAux] at h
  | succ n ih =>
    intro defs req d r h i
    cases hfm : firstMissing defs m.imports with
    | none =>
      cases hie : m.instErr with
      | some e => simp [stubLoopAux, instantiateTemp, hfm, hie] at h
      | none =>
        simp [stubLoopAux, instantiateTemp, hfm, hie] at h
        obtain ⟨hd, hr⟩ := h
        subst hd
        subst hr
        have hall := firstMissing_none hfm
        constructor
        · exact Or.inl
        · rintro (hh | ⟨h1, h2, -⟩)
          · exact hh
          · exact absurd (hall i h1) h2
    | some i0 =>
      obtain ⟨hi0, hd0⟩ := firstMissing_mem hfm
      simp only [stubLoopAux, instantiateTemp, hfm] at h
      have hres := ih _ _ _ _ h i
      rw [hres]
      by_cases hii : i = i0
      · subst hii
        by_cases hh : i ∈ hostFns
        · simp [hh, hd0, hi0]
        · simp [hh, hd0, hi0, List.mem_append]
      · have hreq : (i ∈ if i0 ∈ hostFns then req else req ++ [i0]) ↔ i ∈ req := by
          by_cases hh0 : i0 ∈ hostFns
          · simp [hh0]
          · simp [hh0, List.mem_append, hii]
        by_cases hh : i ∈ hostFns
        · simp [hh, hii, List.mem_append, hreq]
        · simp [hh, hii, List.mem_append, hreq]

/-- The fuel `m.imports.length + 1` used by `extract_metadata` is sufficient
whenever the module has no non-import instantiation error. -/
lemma extract_stub_ok (hostFns : List String) (m : Module)
    (hins : m.instErr = none) :
    ∃ d r, stubLoopAux hostFns m (m.imports.length + 1) [] []
      = some (Except.ok (d, r)) := by
  have hb : (missingOf m []).length < m.imports.length + 1 := by
    rw [missingOf_nil]
    have hs := (List.dedup_sublist m.imports).length_le
    omega
  exact (stubLoopAux_total hostFns m _ [] [] hb).1 hins

/-- Shape of `extract_metadata` once the stub loop has succeeded. -/
lemma extract_metadata_eq_of_ok (hostFns : List String) (m : Module)
    (d r : List String)
    (hs : stubLoopAux hostFns m (m.imports.length + 1) [] []
      = some (Except.ok (d, r))) :
    extract_metadata hostFns m =
      (match m.depsAddr with
       | none => Except.ok { deps := [], exports := m.exports, imports := r }
       | some a =>
         if m.hasMemory then
           match readDepsList (m.mem.drop a) [String.mk []] with
           | Except.error e => Except.error e
           | Except.ok deps =>
             Except.ok { deps := deps, exports := m.exports, imports := r }
         else Except.error "missing memory export") := by
  unfold extract_metadata
  rw [hs]

/-- C9: the speculative-instantiation loop of metadata extraction
terminates: each retry stubs one previously missing import, so fuel equal to
the number of distinct module imports plus one (for the final successful
instantiation) is never exhausted; when every import is stubbed the loop
either succeeds or, when instantiation fails for a reason other than a
missing import (`m.instErr`), that error is propagated unchanged. -/
theorem wlug_C9 (hostFns : List String) (m : Module) :
    (∃ res, stubLoopAux hostFns m (m.imports.dedup.length + 1) [] [] = some res) ∧
    (m.instErr = none →
      ∃ d r, stubLoopAux hostFns m (m.imports.dedup.length + 1) [] []
        = some (Except.ok (d, r))) ∧
    (∀ e, m.instErr = some e →
      stubLoopAux hostFns m (m.imports.dedup.length + 1) [] []
        = some (Except.error e)) := by
  have hb : (missingOf m []).length < m.imports.dedup.length + 1 := by
    rw [missingOf_nil]
    omega
  have h := stubLoopAux_total hostFns m _ [] [] hb
  refine ⟨?_, h.1, h.2⟩
  cases hie : m.instErr with
  | none =>
    obtain ⟨d, r, hr⟩ := h.1 hie
    exact ⟨_, hr⟩
  | some e => exact ⟨_, h.2 e hie⟩

/-- Witness for C9 at the concrete module `mBoom`, whose instantiation fails
with the non-import error `boom` once its single import is stubbed. -/
theorem wlug_C9_witness :
    stubLoopAux [] mBoom (mBoom.imports.dedup.length + 1) [] []
      = some (Except.error "boom") :=
  (wlug_C9 [] mBoom).2.2 "boom" rfl

/-- C7: an import whose name is a registered host-function name is never in
the required-import list computed by metadata extraction, and every other import
discovered by the stub loop (that is, every other module import,
since the temporary linker starts empty) is in it. -/
theorem wlug_C7 (hostFns : List String) (m : Module) (md : PlugMetadata)
    (h : extract_metadata hostFns m = Except.ok md) :
    ∀ i, i ∈ md.imports ↔ (i ∈ m.imports ∧ ¬ i ∈ hostFns) := by
  cases hs : stubLoopAux hostFns m (m.imports.length + 1) [] [] with
  | none =>
    unfold extract_metadata at h
    rw [hs] at h
    exact Except.noConfusion h
  | some res =>
    cases res with
    | error e =>
      unfold extract_metadata at h
      rw [hs] at h
      exact Except.noConfusion h
    | ok dr =>
      obtain ⟨d, r⟩ := dr
      rw [extract_metadata_eq_of_ok hostFns m d r hs] at h
      have himp : md.imports = r := by
        split at h
        · exact (congrArg PlugMetadata.imports (Except.ok.inj h)).symm
        · split at h
          · split at h
            · exact Except.noConfusion h
            · exact (congrArg PlugMetadata.imports (Except.ok.inj h)).symm
          · exact Except.noConfusion h
      intro i
      rw [himp]
      have hm := stubLoopAux_mem hostFns m _ [] [] d r hs i
      simpa using hm

/-- Witness for C7 at the module `mImp`, which imports the host name `h1`
and the plugin name `f` under the host table `[h1]`: the computed
required-import list contains `f` and not `h1`. -/
theorem wlug_C7_witness :
    ("f" ∈ mdImp.imports ↔ ("f" ∈ mImp.imports ∧ ¬ "f" ∈ ["h1"])) ∧
    ¬ "h1" ∈ mdImp.imports := by
  constructor
  · exact wlug_C7 ["h1"] mImp mdImp rfl "f"
  · intro hmem
    have hfact := (wlug_C7 ["h1"] mImp mdImp rfl "h1").mp hmem
    exact hfact.2 (by simp)

/-! Lemmas about the dependency-string reading loop. -/

lemma pushLast_length : ∀ (deps : List String) (c : Char),
    (pushLast deps c).length = deps.length := by
  intro deps
  induction deps with
  | nil => intro c; rfl
  | cons d rest ih =>
    intro c
    cases rest with
    | nil => rfl
    | cons d2 rest2 => simpa [pushLast] using ih c

lemma pushLast_ne_nil (deps : List String) (h : deps ≠ []) (c : Char) :
    pushLast deps c ≠ [] := by
  intro he
  have hl := pushLast_length deps c
  rw [he] at hl
  simp at hl
  exact h (List.eq_nil_of_length_eq_zero hl.symm)

/-- Reading a segment of non-terminator bytes followed by the terminator
succeeds, and produces one name for the initial accumulator plus one more
per delimiter byte 59 in the segment. -/
lemma readDepsList_segment : ∀ (bs t : List Nat) (deps : List String),
    deps ≠ [] → (∀ b ∈ bs, b ≠ 0) →
    ∃ deps', readDepsList (bs ++ 0 :: t) deps = Except.ok deps' ∧
      deps'.length = deps.length + bs.count 59 := by
  intro bs
  induction bs with
  | nil =>
    intro t deps hne hb
    exact ⟨deps, rfl, by simp⟩
  | cons b bs ih =>
    intro t deps hne hb
    have hb0 : b ≠ 0 := hb b (by simp)
    by_cases h59 : b = 59
    · subst h59
      obtain ⟨deps', hok, hlen⟩ :=
        ih t (deps ++ [String.mk []]) (by simp) (fun x hx => hb x (by simp [hx]))
      refine ⟨deps', ?_, ?_⟩
      · show readDepsList (59 :: (bs ++ 0 :: t)) deps = _
        simpa [readDepsList] using hok
      · rw [hlen]
        simp [List.count_cons]
        omega
    · obtain ⟨deps', hok, hlen⟩ :=
        ih t (pushLast deps (charOfByte b)) (pushLast_ne_nil deps hne _)
          (fun x hx => hb x (by simp [hx]))
      refine ⟨deps', ?_, ?_⟩
      · show readDepsList (b :: (bs ++ 0 :: t)) deps = _
        simpa [readDepsList, hb0, h59] using hok
      · rw [hlen, pushLast_length]
        simp [List.count_cons, h59]

/-- Concrete run of the reading loop on the bytes of `a;b;c` followed by the
terminator. -/
lemma readDeps_abc (t : List Nat) :
    readDepsList ([97, 59, 98, 59, 99, 0] ++ t) [String.mk []]
      = Except.ok ["a", "b", "c"] := rfl

/-- C5: when the module has a `__deps` descriptor and the linear memory at
the returned address holds the bytes of `a;b;c` followed by the terminator,
metadata extraction yields exactly the ordered dependency list
`[a, b, c]`; when the descriptor export is absent the list is empty. Both
parts assume the module instantiates cleanly once its imports are stubbed
(`instErr = none`), as extraction aborts otherwise. -/
theorem wlug_C5 (hostFns : List String) (m : Module) (a : Nat)
    (hins : m.instErr = none) :
    (∀ t : List Nat, m.depsAddr = some a → m.hasMemory = true →
      m.mem.drop a = [97, 59, 98, 59, 99, 0] ++ t →
      Except.map PlugMetadata.deps (extract_metadata hostFns m)
        = Except.ok ["a", "b", "c"]) ∧
    (m.depsAddr = none →
      Except.map PlugMetadata.deps (extract_metadata hostFns m)
        = Except.ok []) := by
  obtain ⟨d, r, hs⟩ := extract_stub_ok hostFns m hins
  constructor
  · intro t hda hm hdrop
    rw [extract_metadata_eq_of_ok hostFns m d r hs]
    simp only [hda, hm, if_true]
    rw [hdrop, readDeps_abc]
    rfl
  · intro hda
    rw [extract_metadata_eq_of_ok hostFns m d r hs]
    simp only [hda]
    rfl

/-- Witness for C5 at the concrete modules `mDeps` (memory `a;b;c\0` at
address 0) and `mA` (no descriptor export). -/
theorem wlug_C5_witness :
    Except.map PlugMetadata.deps (extract_metadata [] mDeps)
      = Except.ok ["a", "b", "c"] ∧
    Except.map PlugMetadata.deps (extract_metadata [] mA) = Except.ok [] := by
  constructor
  · exact (wlug_C5 [] mDeps 0 rfl).1 [] rfl rfl rfl
  · exact (wlug_C5 [] mA 0 rfl).2 rfl

/-- C10: when the `__deps` descriptor is present and the memory at the
returned address starts with the terminator byte, extraction yields the
one-element list holding the empty name, not the empty list; in general the
resulting list has length one plus the number of delimiter bytes before the
terminator. -/
theorem wlug_C10 (hostFns : List String) (m : Module) (a : Nat)
    (hins : m.instErr = none) (hda : m.depsAddr = some a)
    (hm : m.hasMemory = true) :
    (∀ t : List Nat, m.mem.drop a = 0 :: t →
      Except.map PlugMetadata.deps (extract_metadata hostFns m)
        = Except.ok [String.mk []]) ∧
    (∀ (bs t : List Nat), m.mem.drop a = bs ++ 0 :: t → (∀ b ∈ bs, b ≠ 0) →
      Except.map (fun md => md.deps.length) (extract_metadata hostFns m)
        = Except.ok (1 + bs.count 59)) := by
  obtain ⟨d, r, hs⟩ := extract_stub_ok hostFns m hins
  constructor
  · intro t hdrop
    rw [extract_metadata_eq_of_ok hostFns m d r hs]
    simp only [hda, hm, if_true]
    rw [hdrop]
    rfl
  · intro bs t hdrop hbs
    obtain ⟨deps', hok, hlen⟩ :=
      readDepsList_segment bs t [String.mk []] (by simp) hbs
    rw [extract_metadata_eq_of_ok hostFns m d r hs]
    simp only [hda, hm, if_true]
    rw [hdrop, hok]
    simp [Except.map, hlen]

/-- Witness for C10 at `mDeps0` (terminator immediately: result is the
single empty name) and `mDeps` (two delimiters: resulting length 3). -/
theorem wlug_C10_witness :
    Except.map PlugMetadata.deps (extract_metadata [] mDeps0)
      = Except.ok [String.mk []] ∧
    Except.map (fun md => md.deps.length) (extract_metadata [] mDeps)
      = Except.ok (1 + ([97, 59, 98, 59, 99] : List Nat).count 59) := by
  constructor
  · exact (wlug_C10 [] mDeps0 0 rfl rfl rfl).1 [] rfl
  · exact (wlug_C10 [] mDeps 0 rfl rfl rfl).2 [97, 59, 98, 59, 99] [] rfl (by decide)

/-! Lemmas about the linker loop. -/

/-- The declared-dependency walk decomposes over list append. -/
lemma resolveDeps_append (items : List (String × Plug)) (pname : String) :
    ∀ (pre rest imports : List String) (toImport : List (String × String)),
      resolveDeps items pname (pre ++ rest) imports toImport =
        (match resolveDeps items pname pre imports toImport with
         | Except.error e => Except.error e
         | Except.ok (i2, t2) => resolveDeps items pname rest i2 t2) := by
  intro pre
  induction pre with
  | nil =>
    intro rest imports t
    rfl
  | cons dpre pre ih =>
    intro rest imports t
    show resolveDeps items pname (dpre :: (pre ++ rest)) imports t = _
    cases hg : getItem items dpre with
    | none => simp [resolveDeps, hg]
    | some pd =>
      cases hri : resolveImports pd dpre pname imports [] t with
      | error e => simp [resolveDeps, hg, hri]
      | ok rt =>
        obtain ⟨res, t2⟩ := rt
        simp only [resolveDeps, hg, hri]
        exact ih rest res t2

/-- When the consulted dependency has no live instance, the first
still-unresolved import that matches one of its record exports aborts the
inner loop with the ordering error. -/
lemma resolveImports_notInst (pDep : Plug) (depName pname : String)
    (hinst : pDep.inst = none) :
    ∀ (imports res : List String) (toImport : List (String × String))
      (imp : String), imp ∈ imports → imp ∈ pDep.exports →
      resolveImports pDep depName pname imports res toImport =
        Except.error (LinkErr.notInstantiated depName pname) := by
  intro imports
  induction imports with
  | nil =>
    intro res t imp h
    cases h
  | cons x rest ih =>
    intro res t imp hmem hexp
    by_cases hx : x ∈ pDep.exports
    · simp [resolveImports, hx, hinst]
    · rcases List.mem_cons.mp hmem with heq | hmem2
      · subst heq
        exact absurd hexp hx
      · simp only [resolveImports, hx, if_neg]
        exact ih _ _ imp hmem2 hexp

/-- C2 (amended): an unregistered declared dependency `d` makes the link
step of plugin `pname` fail with the invalid-dependency error naming `d`,
provided the required-import list of the plugin is nonempty when its link
step starts (otherwise the declared-dependency list is never consulted, see
the counterexample) and the declared dependencies before `d` are processed
without error. Metadata extraction never consults the registry, so it is
unaffected (the counterexample registers such a plugin successfully). -/
theorem wlug_C2 (items : List (String × Plug)) (pname : String) (p : Plug)
    (pre post : List String) (d : String) (imports2 : List String)
    (toImport2 : List (String × String))
    (hp : getItem items pname = some p)
    (hne : p.imports ≠ [])
    (hdeps : p.deps = pre ++ d :: post)
    (hpre : resolveDeps items pname pre p.imports [] = Except.ok (imports2, toImport2))
    (hd : getItem items d = none) :
    linkOne items pname = Except.error (LinkErr.invalidDep d) ∧
    ∀ (s : Plugs) (rest : List String), s.items = items →
      linkGo s (pname :: rest) = (Except.error (LinkErr.invalidDep d), s) := by
  have h1 : resolveDeps items pname p.deps p.imports []
      = Except.error (LinkErr.invalidDep d) := by
    rw [hdeps, resolveDeps_append, hpre]
    simp [resolveDeps, hd]
  have h2 : linkOne items pname = Except.error (LinkErr.invalidDep d) := by
    simp [linkOne, hp, hne, h1]
  refine ⟨h2, ?_⟩
  intro s rest hs
  simp [linkGo, hs, h2]

/-- Counterexample to C2 as stated: `mGhost` declares the unregistered
dependency `ghost` but has no required imports, and the whole `link` run
SUCCEEDS instead of failing with an invalid-dependency error; the first
conjunct also shows that registration (hence metadata extraction) of this
plugin succeeds and records the dependency `ghost`. -/
theorem wlug_C2_counterexample :
    Except.map (fun s => Option.map Plug.deps (getItem s.items "p"))
        (add emptyPlugs "p" mGhost) = Except.ok (some ["ghost"]) ∧
    getItem sGhost.items "ghost" = none ∧
    (link sGhost).1 = Except.ok () := ⟨rfl, rfl, rfl⟩

/-- Witness for the amended C2 at the registry `itemsC2`, whose only plugin imports
`f` and declares the unregistered dependency `ghost`. -/
theorem wlug_C2_witness :
    linkOne itemsC2 "p" = Except.error (LinkErr.invalidDep "ghost") :=
  (wlug_C2 itemsC2 "p" plugPG [] [] "ghost" ["f"] [] rfl (by decide) rfl rfl rfl).1

/-- C3 (amended): when the link step of plugin `pname` reaches the declared
dependency `d` (every earlier declared dependency resolves without error and
the required-import list is nonempty), `d` is registered but has no live
instance yet, and at least one still-unresolved import of the plugin matches
a record export of `d`, linking fails with the ordering error naming `d` and
`pname`. The match requirement is essential: with no matching export the
missing instance goes undetected (see the counterexample). -/
theorem wlug_C3 (items : List (String × Plug)) (pname : String) (p : Plug)
    (pre post : List String) (d : String) (imports2 : List String)
    (toImport2 : List (String × String)) (pd : Plug) (imp : String)
    (hp : getItem items pname = some p)
    (hne : p.imports ≠ [])
    (hdeps : p.deps = pre ++ d :: post)
    (hpre : resolveDeps items pname pre p.imports [] = Except.ok (imports2, toImport2))
    (hd : getItem items d = some pd)
    (hinst : pd.inst = none)
    (himp : imp ∈ imports2)
    (hexp : imp ∈ pd.exports) :
    linkOne items pname = Except.error (LinkErr.notInstantiated d pname) ∧
    ∀ (s : Plugs) (rest : List String), s.items = items →
      linkGo s (pname :: rest)
        = (Except.error (LinkErr.notInstantiated d pname), s) := by
  have h1 : resolveDeps items pname p.deps p.imports []
      = Except.error (LinkErr.notInstantiated d pname) := by
    rw [hdeps, resolveDeps_append, hpre]
    simp [resolveDeps, hd,
      resolveImports_notInst pd d pname hinst imports2 [] toImport2 imp himp hexp]
  have h2 : linkOne items pname = Except.error (LinkErr.notInstantiated d pname) := by
    simp [linkOne, hp, hne, h1]
  refine ⟨h2, ?_⟩
  intro s rest hs
  simp [linkGo, hs, h2]

/-- Counterexample to C3 as stated: in `sC3` the plugin `p` (imports `f`)
declares the dependency `d`, which is registered but not instantiated when
`p` is processed — yet because no unresolved import of `p` matches an export
of `d`, `link` fails with the unresolved-import error, NOT with an ordering
error naming `p` and `d`. -/
theorem wlug_C3_counterexample :
    (getItem sC3.items "d").map Plug.inst = some none ∧
    (link sC3).1 = Except.error (LinkErr.unresolved "p" ["f"]) := ⟨rfl, rfl⟩

/-- Witness for the amended C3 at `itemsC3w`, where the uninstantiated
dependency `d` exports the name `f` that `p` still needs. -/
theorem wlug_C3_witness :
    linkOne itemsC3w "p" = Except.error (LinkErr.notInstantiated "d" "p") :=
  (wlug_C3 itemsC3w "p" plugP [] [] "d" ["f"] [] plugDexp "f"
    rfl (by decide) rfl rfl rfl rfl (by decide) (by decide)).1

/-- C6: when the declared-dependency walk of plugin `pname` completes and
leaves a nonempty residue of unresolved imports, its link step fails with
the unresolved-import error naming the plugin and exactly that residue, and
the loop returns the state unchanged, so the plugin record keeps its
(absent) instance: the plugin is not instantiated. -/
theorem wlug_C6 (items : List (String × Plug)) (pname : String) (p : Plug)
    (imports2 : List String) (toImport2 : List (String × String))
    (hp : getItem items pname = some p)
    (hne : p.imports ≠ [])
    (hres : resolveDeps items pname p.deps p.imports [] = Except.ok (imports2, toImport2))
    (hne2 : imports2 ≠ []) :
    linkOne items pname = Except.error (LinkErr.unresolved pname imports2) ∧
    ∀ (s : Plugs) (rest : List String), s.items = items →
      linkGo s (pname :: rest)
        = (Except.error (LinkErr.unresolved pname imports2), s) := by
  have h1 : linkOne items pname = Except.error (LinkErr.unresolved pname imports2) := by
    simp [linkOne, hp, hne, hres, hne2]
  refine ⟨h1, ?_⟩
  intro s rest hs
  simp [linkGo, hs, h1]

/-- Witness for C6 at `sC3`: plugin `p` still needs `f` after consulting its
only declared dependency `d` (which exports nothing); the step fails naming
`p` and exactly `[f]`, and the state is returned unchanged. -/
theorem wlug_C6_witness :
    linkOne itemsC3 "p" = Except.error (LinkErr.unresolved "p" ["f"]) ∧
    linkGo sC3 ["p", "d"] = (Except.error (LinkErr.unresolved "p" ["f"]), sC3) := by
  have h := wlug_C6 itemsC3 "p" plugP ["f"] [] rfl (by decide) rfl (by decide)
  exact ⟨h.1, h.2 sC3 ["d"] rfl⟩

/-! Lemmas about the registry. -/

/-- C1 (amended): registering a plugin under a name that already exists in
the registry does NOT fail: whenever metadata extraction of the module
succeeds, `add` succeeds, replaces the existing record by a fresh one whose
id is the current load-order length, and appends the name to the load-order
sequence a second time. -/
theorem wlug_C1 (s : Plugs) (name : String) (m : Module) (md : PlugMetadata)
    (p0 : Plug)
    (hmd : extract_metadata s.hostFns m = Except.ok md)
    (hex : getItem s.items name = some p0) :
    add s name m = Except.ok { s with
      items := insertItem s.items name
        { id := s.order.length, module := m, linkerDefs := s.hostFns,
          inst := none, deps := md.deps, exports := md.exports,
          imports := md.imports },
      order := s.order ++ [name] } := by
  simp [add, hmd]

/-- Counterexample to C1 as stated: registering `a` a second time in `s1a`
succeeds (so it does not return an error) and changes the load-order
sequence from `[a]` to `[a, a]` (so the registry is not left unchanged). -/
theorem wlug_C1_counterexample :
    s1a.order = ["a"] ∧
    Except.map (fun s => s.order) (add s1a "a" mA)
      = Except.ok ["a", "a"] := ⟨rfl, rfl⟩

/-- Witness for the amended C1: the duplicate registration of `a` in `s1a`
replaces the record and appends the name again. -/
theorem wlug_C1_witness :
    add s1a "a" mA = Except.ok { s1a with
      items := insertItem s1a.items "a"
        { id := s1a.order.length, module := mA, linkerDefs := s1a.hostFns,
          inst := none, deps := [], exports := [], imports := [] },
      order := s1a.order ++ ["a"] } :=
  wlug_C1 s1a "a" mA { deps := [], exports := [], imports := [] } plugA0 rfl rfl

/-- Inserting a key that is not yet present appends the pair. -/
lemma insertItem_of_not_mem (items : List (String × Plug)) (n : String)
    (p : Plug) (h : ¬ n ∈ items.map Prod.fst) :
    insertItem items n p = items ++ [(n, p)] := by
  induction items with
  | nil => rfl
  | cons x rest ih =>
    have hne : ¬ x.1 = n := by
      intro he
      exact h (by simp [← he])
    have hrest : ¬ n ∈ rest.map Prod.fst := by
      intro hm
      exact h (by simp [hm])
    simp [insertItem, hne, ih hrest]

/-- Successful `add` produces exactly the replaced-or-appended state. -/
lemma add_ok_shape (s0 : Plugs) (n : String) (m : Module) (s1 : Plugs)
    (h : add s0 n m = Except.ok s1) :
    ∃ md, extract_metadata s0.hostFns m = Except.ok md ∧
      s1 = { s0 with
        items := insertItem s0.items n
          { id := s0.order.length, module := m, linkerDefs := s0.hostFns,
            inst := none, deps := md.deps, exports := md.exports,
            imports := md.imports },
        order := s0.order ++ [n] } := by
  unfold add at h
  cases hmd : extract_metadata s0.hostFns m with
  | error e =>
    rw [hmd] at h
    exact Except.noConfusion h
  | ok md =>
    rw [hmd] at h
    exact ⟨md, rfl, (Except.ok.inj h).symm⟩

/-- Invariant of repeated registration with fresh names: record keys follow
the load order and record ids are exactly `0, 1, 2, ...` in registration
order. -/
lemma addAll_ids : ∀ (regs : List (String × Module)) (s0 s : Plugs),
    s0.items.map Prod.fst = s0.order →
    s0.items.map (fun x => x.2.id) = List.range s0.order.length →
    (s0.order ++ regs.map Prod.fst).Nodup →
    addAll s0 regs = Except.ok s →
    (s.items.map Prod.fst = s0.order ++ regs.map Prod.fst ∧
     s.items.map (fun x => x.2.id) = List.range (s0.order.length + regs.length) ∧
     s.order = s0.order ++ regs.map Prod.fst) := by
  intro regs
  induction regs with
  | nil =>
    intro s0 s h1 h2 h3 h4
    have hs : s0 = s := by simpa [addAll] using h4
    subst hs
    simp [h1, h2]
  | cons nm rest ih =>
    intro s0 s h1 h2 h3 h4
    obtain ⟨n, mm⟩ := nm
    unfold addAll at h4
    cases hadd : add s0 n mm with
    | error e =>
      rw [hadd] at h4
      exact Except.noConfusion h4
    | ok s1 =>
      rw [hadd] at h4
      obtain ⟨md, hmd, hshape⟩ := add_ok_shape s0 n mm s1 hadd
      have hnotin : ¬ n ∈ s0.order := by
        rcases List.nodup_append.mp h3 with ⟨-, -, hdisj⟩
        intro hn
        exact hdisj hn (by simp)
      have hni : ¬ n ∈ s0.items.map Prod.fst := by
        rw [h1]
        exact hnotin
      have happ := insertItem_of_not_mem s0.items n
        { id := s0.order.length, module := mm, linkerDefs := s0.hostFns,
          inst := none, deps := md.deps, exports := md.exports,
          imports := md.imports } hni
      have h1' : s1.items.map Prod.fst = s1.order := by
        rw [hshape]
        simp [happ, h1]
      have h2' : s1.items.map (fun x => x.2.id) = List.range s1.order.length := by
        rw [hshape]
        simp [happ, h2, List.range_succ]
      have h3' : (s1.order ++ rest.map Prod.fst).Nodup := by
        rw [hshape]
        simpa [List.append_assoc] using h3
      have hres := ih s1 s h1' h2' h3' h4
      have hord : s1.order = s0.order ++ [n] := by rw [hshape]
      have hlen : s1.order.length = s0.order.length + 1 := by
        rw [hord]
        simp
      refine ⟨?_, ?_, ?_⟩
      · rw [hres.1, hord]
        simp [List.append_assoc]
      · rw [hres.2.1, hlen]
        have harr : s0.order.length + 1 + rest.length
            = s0.order.length + (rest.length + 1) := by omega
        rw [harr]
        simp
      · rw [hres.2.2, hord]
        simp [List.append_assoc]

/-- C8 (amended): after any sequence of successful registrations with
pairwise-distinct names starting from the empty host, the record keys are
the registered names in registration order, the record ids are exactly
`List.range n` — dense, unique, and ordered, with the k-th registered plugin
receiving id k — and the load order is the registration order. The
distinctness proviso is forced by the counterexample: a duplicate-name
registration also succeeds and breaks density. -/
theorem wlug_C8 (regs : List (String × Module)) (s : Plugs)
    (hnd : (regs.map Prod.fst).Nodup)
    (h : addAll emptyPlugs regs = Except.ok s) :
    s.items.map Prod.fst = regs.map Prod.fst ∧
    s.items.map (fun x => x.2.id) = List.range regs.length ∧
    s.order = regs.map Prod.fst := by
  have hres := addAll_ids regs emptyPlugs s rfl rfl (by simpa [emptyPlugs] using hnd) h
  simpa [emptyPlugs] using hres

/-- Counterexample to C8 as stated: registering the name `a` twice is a
sequence of successful registrations after which the registry holds one
record with id 1 while the load order has two entries — the id set `[1]` is
not `0..1`, so it is not dense. -/
theorem wlug_C8_counterexample :
    Except.map (fun s => s.order.length) (add s1a "a" mA) = Except.ok 2 ∧
    s2a.items.map (fun x => x.2.id) = [1] ∧
    s2a.order.length = 2 := ⟨rfl, rfl, rfl⟩

/-- Witness for the amended C8 at the two distinct registrations `a`, `b`. -/
theorem wlug_C8_witness :
    sAB.items.map Prod.fst = ["a", "b"] ∧
    sAB.items.map (fun x => x.2.id) = List.range 2 ∧
    sAB.order = ["a", "b"] := by
  have h := wlug_C8 [("a", mA), ("b", mA)] sAB (by decide) rfl
  exact h

/-- C4: a successful `call` sets the store current id to the plugin id
before invoking the function — the function behaviour `f.run` is applied to
`p.id`, not to the previous current id — returns the function result, and
leaves the current id at whatever value the execution itself ended with
(`(f.run p.id).1`, the id of the innermost entry the execution performed):
nothing restores the pre-call value. -/
theorem wlug_C4 (s : Plugs) (plug func : String) (p : Plug) (f : WasmFn)
    (hp : getItem s.items plug = some p)
    (hi : p.inst = some ())
    (hf : p.module.funcs.lookup func = some f) :
    call s plug func
      = Except.ok ((f.run p.id).2, { s with currentId := (f.run p.id).1 }) := by
  simp [call, get_func_with_id, hp, hi, hf, set_current_id]

/-- Witness for C4 at `sQ`: the pre-call current id is 0, the plugin id is
4, the function moves the id to 7 and returns 3; after the call the current
id is 7 — set on entry, moved by the execution, never restored. -/
theorem wlug_C4_witness :
    call sQ "q" "fun1" = Except.ok (3, { sQ with currentId := 7 }) :=
  wlug_C4 sQ "q" "fun1" plugQ wfB rfl rfl rfl

end Wlug
